import Mathlib

/-!
Verification development for the text-editor command dispatcher and
file-mutation engine of mcp-server-text-editor.

The repository ships the tool registration (src/index.ts) and an extensive
unit-test suite (test/unit/tools/textEditor.test.ts) for the engine
exported from src/tools/textEditor.ts, but that module itself is not part
of the source snapshot.  The engine is therefore modelled here from the
specification, with each modelled definition marked as such.  Filesystem
state and the per-path history store are passed explicitly; the fallible
parts return structured results, and an optional injected fault models a
value thrown during handler execution.
-/

namespace TextEditor

/-- Modelled from the spec: the structured result produced by the engine,
`\x7b success, message, content? \x7d`; `content` is present for successful
`view`. -/
structure Result where
  success : Bool
  message : String
  content : Option String
deriving DecidableEq, Repr

/-- Modelled from the spec: a filesystem entry is a text file with content
or a directory with child names. -/
inductive FSEntry where
  | file (content : String)
  | dir (names : List String)
deriving DecidableEq, Repr

/-- The filesystem, as a path-keyed association list (earlier entries
shadow later ones). -/
abbrev FileSystem := List (String × FSEntry)

/-- First entry bound to a path, if any. -/
def lookupEntry : FileSystem → String → Option FSEntry
  | [], _ => none
  | (q, e) :: fs, p => if p = q then some e else lookupEntry fs p

/-- The history store lookup: ordered snapshots for a path, most recent
last; a path with no binding has the empty stack. -/
def lookupHist : List (String × List String) → String → List String
  | [], _ => []
  | (q, h) :: rest, p => if p = q then h else lookupHist rest p

/-- Modelled from the spec: the engine state is the filesystem together
with the process-wide History Store mapping each path to its stack of
prior contents (most recent last). -/
structure EditorState where
  fs : FileSystem
  hist : List (String × List String)
deriving DecidableEq, Repr

/-- Content of the file at a path, when the path holds a file. -/
def fileAt (st : EditorState) (p : String) : Option String :=
  match lookupEntry st.fs p with
  | some (FSEntry.file c) => some c
  | _ => none

/-- History stack of a path. -/
def histOf (st : EditorState) (p : String) : List String :=
  lookupHist st.hist p

/-- Write a file (create or overwrite) at a path. -/
def withFile (st : EditorState) (p c : String) : EditorState :=
  ⟨(p, FSEntry.file c) :: st.fs, st.hist⟩

/-- Push one snapshot for a path onto the History Store. -/
def pushSnapshot (st : EditorState) (p c : String) : EditorState :=
  ⟨st.fs, (p, histOf st p ++ [c]) :: st.hist⟩

/-- Drop the most recent snapshot of a path from the History Store. -/
def popSnapshot (st : EditorState) (p : String) : EditorState :=
  ⟨st.fs, (p, (histOf st p).dropLast) :: st.hist⟩

/-- Modelled from the spec: the command object consumed by the engine. -/
structure Command where
  command : String
  path : String
  view_range : Option (Option Int × Int)
  file_text : Option String
  old_str : Option String
  new_str : Option String
  insert_line : Option Int
deriving DecidableEq, Repr

/-- A value thrown during handler execution: either a structured error
carrying a message, or any other thrown value. -/
inductive Thrown where
  | errObj (message : String)
  | nonError
deriving DecidableEq, Repr

/-- Modelled from the spec: the description the dispatcher extracts from a
thrown value; a non-structured value is described as "Unknown error". -/
def Thrown.describe : Thrown → String
  | Thrown.errObj m => m
  | Thrown.nonError => "Unknown error"

/-- A path is absolute when it starts with the separator. -/
def isAbsolutePath (p : String) : Bool :=
  match p.data with
  | [] => false
  | c :: _ => c = '/'

/-- Split on newline characters, keeping empty segments (the splitting the
engine performs on file content). -/
def splitLinesAux : List Char → List Char → List String
  | [], acc => [String.mk acc.reverse]
  | c :: cs, acc =>
    if c = '\n' then String.mk acc.reverse :: splitLinesAux cs []
    else splitLinesAux cs (c :: acc)

/-- Lines of a content string: split on the newline separator. -/
def splitLines (s : String) : List String := splitLinesAux s.data []

/-- Join lines with the newline separator. -/
def joinLines : List String → String
  | [] => ""
  | [l] => l
  | l :: l' :: ls => l ++ "\n" ++ joinLines (l' :: ls)

/-- Number of positions at which the pattern occurs in the haystack. -/
def countOccurAux : List Char → List Char → Nat
  | [], pat => if pat = [] then 1 else 0
  | c :: cs, pat =>
    (if pat.isPrefixOf (c :: cs) then 1 else 0) + countOccurAux cs pat

/-- Modelled from the spec: the number of occurrences of `pat` as an exact
substring of `hay`. -/
def countOccurrences (hay pat : String) : Nat :=
  countOccurAux hay.data pat.data

/-- Replace the first occurrence of the pattern with the replacement. -/
def replaceFirstAux : List Char → List Char → List Char → List Char
  | [], pat, rep => if pat = [] then rep else []
  | c :: cs, pat, rep =>
    if pat.isPrefixOf (c :: cs) then rep ++ List.drop pat.length (c :: cs)
    else c :: replaceFirstAux cs pat rep

/-- Modelled from the spec: the haystack with its first occurrence of
`pat` replaced by `rep`. -/
def replaceFirst (hay pat rep : String) : String :=
  String.mk (replaceFirstAux hay.data pat.data rep.data)

/-- Modelled from the spec: the view truncation threshold, 10 KiB of
rendered text. -/
def MAX_VIEW_SIZE : Nat := 10 * 1024

/-- Modelled from the spec: keep the lines whose 1-indexed number lies in
the inclusive range, each prefixed with its absolute line number; `i` is
the number of the first line of the remaining list. -/
def numberAndFilter : List String → Nat → Int → Int → List String
  | [], _, _, _ => []
  | l :: ls, i, s, e =>
    (if s ≤ (i : Int) ∧ (i : Int) ≤ e then [toString i ++ ": " ++ l] else [])
      ++ numberAndFilter ls (i + 1) s e

/-- Modelled from the spec: resolve the optional view range; a missing
range covers the whole file, a null start defaults to 1, and an end of -1
means the last line. -/
def viewBounds (lineCount : Nat) : Option (Option Int × Int) → Int × Int
  | none => (1, (lineCount : Int))
  | some (so, e0) => (so.getD 1, if e0 = -1 then (lineCount : Int) else e0)

/-- Modelled from the spec: the rendered, line-numbered view of a file
content under an optional range. -/
def renderedView (content : String) (range : Option (Option Int × Int)) : String :=
  let lines := splitLines content
  let se := viewBounds lines.length range
  joinLines (numberAndFilter lines 1 se.1 se.2)

/-- Modelled from the spec: rendered content over the threshold is cut at
the threshold and marked as clipped; otherwise it is returned whole. -/
def truncateView (rendered : String) : Result :=
  if MAX_VIEW_SIZE < rendered.data.length then
    ⟨true, "File content (truncated):",
      some (String.mk (rendered.data.take MAX_VIEW_SIZE) ++ "<response clipped>")⟩
  else ⟨true, "File content:", some rendered⟩

/-- Last snapshot of a nonempty stack given as head and tail. -/
def lastSnap : String → List String → String
  | c, [] => c
  | _, c :: cs => lastSnap c cs

/-- Either inject the fault as a thrown value, at the first filesystem
access of a handler, or return the handler outcome. -/
def guardFault (fault : Option Thrown) (out : Result × EditorState) :
    Except Thrown (Result × EditorState) :=
  match fault with
  | some t => Except.error t
  | none => Except.ok out

/-- Modelled from the spec: the view handler, after path validation. -/
def viewHandler (cmd : Command) (st : EditorState) : Result × EditorState :=
  match lookupEntry st.fs cmd.path with
  | none => (⟨false, "File or directory not found: " ++ cmd.path, none⟩, st)
  | some (FSEntry.dir names) =>
    (⟨true, "Directory listing for " ++ cmd.path ++ ":", some (joinLines names)⟩, st)
  | some (FSEntry.file content) =>
    (truncateView (renderedView content cmd.view_range), st)

/-- Modelled from the spec: the create handler body once `file_text` is
present; an existing file is overwritten after its content is pushed to
the History Store, a new path pushes nothing. -/
def createHandler (cmd : Command) (txt : String) (st : EditorState) : Result × EditorState :=
  match lookupEntry st.fs cmd.path with
  | some (FSEntry.file old) =>
    (⟨true, "File overwritten: " ++ cmd.path, none⟩,
      withFile (pushSnapshot st cmd.path old) cmd.path txt)
  | some (FSEntry.dir _) =>
    (⟨true, "File overwritten: " ++ cmd.path, none⟩, withFile st cmd.path txt)
  | none =>
    (⟨true, "File created: " ++ cmd.path, none⟩, withFile st cmd.path txt)

/-- Modelled from the spec: the str_replace handler, after path
validation; requires an existing file and an `old_str` occurring exactly
once, and replaces that occurrence with `new_str` (empty when omitted). -/
def strReplaceHandler (cmd : Command) (st : EditorState) : Result × EditorState :=
  match lookupEntry st.fs cmd.path with
  | some (FSEntry.file content) =>
    (match cmd.old_str with
     | none => (⟨false, "old_str parameter is required", none⟩, st)
     | some old =>
       let n := countOccurrences content old
       if n = 0 then (⟨false, "old_str was not found in file", none⟩, st)
       else if n = 1 then
         (⟨true, "Successfully replaced text at exactly one location.", none⟩,
           withFile (pushSnapshot st cmd.path content) cmd.path
             (replaceFirst content old (cmd.new_str.getD "")))
       else
         (⟨false, "Found " ++ toString n ++ " occurrences of old_str in the file",
           none⟩, st))
  | _ => (⟨false, "File not found: " ++ cmd.path, none⟩, st)

/-- Modelled from the spec: the insert handler, after path validation;
requires an existing file, both parameters, and an insertion point inside
`[0, lineCount]`, and splices the new line in at that point. -/
def insertHandler (cmd : Command) (st : EditorState) : Result × EditorState :=
  match lookupEntry st.fs cmd.path with
  | some (FSEntry.file content) =>
    (match cmd.insert_line with
     | none => (⟨false, "insert_line parameter is required", none⟩, st)
     | some n =>
       match cmd.new_str with
       | none => (⟨false, "new_str parameter is required", none⟩, st)
       | some txt =>
         let lines := splitLines content
         if 0 ≤ n ∧ n ≤ (lines.length : Int) then
           (⟨true, "Successfully inserted text at line " ++ toString n ++ ".", none⟩,
             withFile (pushSnapshot st cmd.path content) cmd.path
               (joinLines (lines.take n.toNat ++ [txt] ++ lines.drop n.toNat)))
         else
           (⟨false, "Invalid line number: must be between 0 and "
             ++ toString lines.length, none⟩, st))
  | _ => (⟨false, "File not found: " ++ cmd.path, none⟩, st)

/-- Modelled from the spec: the undo handler, after path validation; an
empty stack fails with no history, otherwise the most recent snapshot is
popped and written back. -/
def undoHandler (cmd : Command) (st : EditorState) : Result × EditorState :=
  match histOf st cmd.path with
  | [] => (⟨false, "No edit history found for " ++ cmd.path, none⟩, st)
  | c :: cs =>
    (⟨true, "Successfully reverted last edit on " ++ cmd.path, none⟩,
      withFile (popSnapshot st cmd.path) cmd.path (lastSnap c cs))

/-- Modelled from the spec: command routing after path validation; the
injected fault fires at the first filesystem access of the chosen
handler, and an unrecognized command name fails. -/
def runHandler (fault : Option Thrown) (cmd : Command) (st : EditorState) :
    Except Thrown (Result × EditorState) :=
  match cmd.command with
  | "view" => guardFault fault (viewHandler cmd st)
  | "create" =>
    (match cmd.file_text with
     | none => Except.ok (⟨false, "file_text parameter is required", none⟩, st)
     | some txt => guardFault fault (createHandler cmd txt st))
  | "str_replace" => guardFault fault (strReplaceHandler cmd st)
  | "insert" => guardFault fault (insertHandler cmd st)
  | "undo_edit" =>
    (match histOf st cmd.path with
     | [] => Except.ok (⟨false, "No edit history found for " ++ cmd.path, none⟩, st)
     | _ :: _ => guardFault fault (undoHandler cmd st))
  | other => Except.ok (⟨false, "Unknown command: " ++ other, none⟩, st)

/-- Modelled from the spec: the dispatcher; the path is validated before
any filesystem access, and any value thrown during handler execution is
caught and normalized to a failure result. -/
def runCore (fault : Option Thrown) (cmd : Command) (st : EditorState) :
    Result × EditorState :=
  if isAbsolutePath cmd.path then
    match runHandler fault cmd st with
    | Except.ok out => out
    | Except.error t => (⟨false, t.describe, none⟩, st)
  else (⟨false, "Path must be absolute: " ++ cmd.path, none⟩, st)

/-- The dispatcher under fault-free execution. -/
def run (cmd : Command) (st : EditorState) : Result × EditorState :=
  runCore none cmd st

/-- One item of an MCP tool response. -/
structure TextItem where
  type : String
  text : String
deriving DecidableEq, Repr

/-- The MCP tool response envelope produced for every invocation. -/
structure ToolResponse where
  content : List TextItem
deriving DecidableEq, Repr

/-- JSON escaping of one character inside a string literal. -/
def escapeJsonChar (c : Char) : String :=
  if c = '"' then "\\\""
  else if c = '\\' then "\\\\"
  else if c = '\n' then "\\n"
  else if c = '\r' then "\\r"
  else if c = '\t' then "\\t"
  else String.singleton c

/-- A JSON string literal for the given text. -/
def jsonStringLit (s : String) : String :=
  "\"" ++ String.join (s.data.map escapeJsonChar) ++ "\""

/-- Modelled from the spec: the JSON serialization of a result object;
the optional `content` field is omitted when absent. -/
def serializeResult (r : Result) : String :=
  (if r.success then "\x7b\"success\":true" else "\x7b\"success\":false")
    ++ ",\"message\":" ++ jsonStringLit r.message
    ++ (match r.content with
        | none => ""
        | some c => ",\"content\":" ++ jsonStringLit c)
    ++ "\x7d"

/-- Modelled from the spec: the exported tool entry point; it runs the
dispatcher and wraps the result as a single text item holding the JSON
payload. -/
def textEditorExecute (fault : Option Thrown) (cmd : Command) (st : EditorState) :
    ToolResponse × EditorState :=
  let out := runCore fault cmd st
  (⟨[⟨"text", serializeResult out.1⟩]⟩, out.2)

/-- Run a sequence of commands, threading the state. -/
def runSeq : List Command → EditorState → EditorState
  | [], st => st
  | c :: cs, st => runSeq cs (run c st).2

/-- Every command of the sequence succeeds when run in order. -/
def succeedsAll : List Command → EditorState → Bool
  | [], _ => true
  | c :: cs, st => (run c st).1.success && succeedsAll cs (run c st).2

/-- The mutating commands: create, str_replace and insert. -/
def isMutating (cmd : Command) : Bool :=
  cmd.command = "create" || cmd.command = "str_replace" || cmd.command = "insert"

/-- A view command. -/
def viewCmd (p : String) (r : Option (Option Int × Int)) : Command :=
  ⟨"view", p, r, none, none, none, none⟩

/-- A create command. -/
def createCmd (p txt : String) : Command :=
  ⟨"create", p, none, some txt, none, none, none⟩

/-- A str_replace command. -/
def replaceCmd (p old : String) (new : Option String) : Command :=
  ⟨"str_replace", p, none, none, some old, new, none⟩

/-- An insert command. -/
def insertCmd (p : String) (n : Int) (txt : String) : Command :=
  ⟨"insert", p, none, none, none, some txt, some n⟩

/-- An undo_edit command. -/
def undoCmd (p : String) : Command :=
  ⟨"undo_edit", p, none, none, none, none, none⟩

/-- An arbitrary command with only a name and a path. -/
def bareCmd (name p : String) : Command :=
  ⟨name, p, none, none, none, none, none⟩

/-! ### Basic state lemmas -/

theorem lookupEntry_cons (q : String) (e : FSEntry) (fs : FileSystem) (p : String) :
    lookupEntry ((q, e) :: fs) p = if p = q then some e else lookupEntry fs p := rfl

theorem lookupHist_cons (q : String) (h : List String)
    (rest : List (String × List String)) (p : String) :
    lookupHist ((q, h) :: rest) p = if p = q then h else lookupHist rest p := rfl

theorem fileAt_withFile_self (st : EditorState) (p c : String) :
    fileAt (withFile st p c) p = some c := by
  simp [fileAt, withFile, lookupEntry]

theorem histOf_withFile (st : EditorState) (p c q : String) :
    histOf (withFile st p c) q = histOf st q := rfl

theorem histOf_pushSnapshot_self (st : EditorState) (p c : String) :
    histOf (pushSnapshot st p c) p = histOf st p ++ [c] := by
  simp [histOf, pushSnapshot, lookupHist]

theorem fileAt_pushSnapshot (st : EditorState) (p c q : String) :
    fileAt (pushSnapshot st p c) q = fileAt st q := rfl

theorem histOf_popSnapshot_self (st : EditorState) (p : String) :
    histOf (popSnapshot st p) p = (histOf st p).dropLast := by
  simp [histOf, popSnapshot, lookupHist]

theorem fileAt_popSnapshot (st : EditorState) (p q : String) :
    fileAt (popSnapshot st p) q = fileAt st q := rfl

theorem lookupEntry_of_fileAt {st : EditorState} {p F : String}
    (h : fileAt st p = some F) : lookupEntry st.fs p = some (FSEntry.file F) := by
  unfold fileAt at h
  split at h
  case h_1 c heq => cases h; exact heq
  case h_2 => cases h

/-! ### Claim C9 -/

/-- Claim C9: for each of the five commands, a non-absolute path fails with
the invalid-path message, before any filesystem access (so for every
injected fault), and leaves the state untouched. -/
theorem c9_path_validation_first (cmd : Command) (st : EditorState)
    (fault : Option Thrown)
    (_hname : cmd.command = "view" ∨ cmd.command = "create"
      ∨ cmd.command = "str_replace" ∨ cmd.command = "insert"
      ∨ cmd.command = "undo_edit")
    (hrel : isAbsolutePath cmd.path = false) :
    runCore fault cmd st
      = (⟨false, "Path must be absolute: " ++ cmd.path, none⟩, st) := by
  unfold runCore
  rw [hrel]
  simp

/-- Witness for C9 at the concrete relative path of the test suite. -/
theorem c9_path_validation_first_witness :
    ((viewCmd "relative/path.txt" none).command = "view"
        ∨ (viewCmd "relative/path.txt" none).command = "create"
        ∨ (viewCmd "relative/path.txt" none).command = "str_replace"
        ∨ (viewCmd "relative/path.txt" none).command = "insert"
        ∨ (viewCmd "relative/path.txt" none).command = "undo_edit")
    ∧ isAbsolutePath "relative/path.txt" = false
    ∧ runCore none (viewCmd "relative/path.txt" none) ⟨[], []⟩
        = (⟨false, "Path must be absolute: relative/path.txt", none⟩, ⟨[], []⟩) :=
  ⟨Or.inl rfl, by decide,
    c9_path_validation_first (viewCmd "relative/path.txt" none) ⟨[], []⟩ none
      (Or.inl rfl) (by decide)⟩

/-! ### Claim C8 -/

/-- Claim C8: an unrecognized command name fails with the unknown-command
message, and a value thrown during handler execution is caught and
normalized to a failure carrying the thrown error message, or "Unknown
error" for a non-structured thrown value; nothing escapes the dispatcher. -/
theorem c8_dispatcher_normalization :
    (∀ (cmd : Command) (st : EditorState),
        isAbsolutePath cmd.path = true →
        cmd.command ≠ "view" → cmd.command ≠ "create" →
        cmd.command ≠ "str_replace" → cmd.command ≠ "insert" →
        cmd.command ≠ "undo_edit" →
        run cmd st = (⟨false, "Unknown command: " ++ cmd.command, none⟩, st))
    ∧ (∀ (m p : String) (st : EditorState) (r : Option (Option Int × Int)),
        isAbsolutePath p = true →
        runCore (some (Thrown.errObj m)) (viewCmd p r) st
          = (⟨false, m, none⟩, st))
    ∧ (∀ (p : String) (st : EditorState) (r : Option (Option Int × Int)),
        isAbsolutePath p = true →
        runCore (some Thrown.nonError) (viewCmd p r) st
          = (⟨false, "Unknown error", none⟩, st)) := by
  refine ⟨?_, ?_, ?_⟩
  · intro cmd st habs h1 h2 h3 h4 h5
    unfold run runCore runHandler
    rw [habs]
    simp only [if_true]
  · intro m p st r habs
    unfold runCore runHandler
    rw [show (viewCmd p r).path = p from rfl, habs]
    simp [viewCmd, guardFault, Thrown.describe]
  · intro p st r habs
    unfold runCore runHandler
    rw [show (viewCmd p r).path = p from rfl, habs]
    simp [viewCmd, guardFault, Thrown.describe]

/-- Witness for C8: the unknown command of the test suite, a thrown
structured error, and a thrown plain string. -/
theorem c8_dispatcher_normalization_witness :
    isAbsolutePath "/tmp/f.txt" = true
    ∧ run (bareCmd "invalid_command" "/tmp/f.txt") ⟨[], []⟩
        = (⟨false, "Unknown command: invalid_command", none⟩, ⟨[], []⟩)
    ∧ runCore (some (Thrown.errObj "Directory listing error"))
        (viewCmd "/tmp/f.txt" none) ⟨[], []⟩
        = (⟨false, "Directory listing error", none⟩, ⟨[], []⟩)
    ∧ runCore (some Thrown.nonError) (viewCmd "/tmp/f.txt" none) ⟨[], []⟩
        = (⟨false, "Unknown error", none⟩, ⟨[], []⟩) :=
  ⟨by decide,
    c8_dispatcher_normalization.1 (bareCmd "invalid_command" "/tmp/f.txt") ⟨[], []⟩
      (by decide) (by decide) (by decide) (by decide) (by decide) (by decide),
    c8_dispatcher_normalization.2.1 "Directory listing error" "/tmp/f.txt" ⟨[], []⟩
      none (by decide),
    c8_dispatcher_normalization.2.2 "/tmp/f.txt" ⟨[], []⟩ none (by decide)⟩

/-! ### Claim C10 -/

/-- Claim C10: every invocation of the tool entry point returns an
envelope whose content is a single text item holding the JSON
serialization of the structured result, and a failing result is reported
inside that JSON payload with success set to false. -/
theorem c10_result_envelope (fault : Option Thrown) (cmd : Command)
    (st : EditorState) :
    (textEditorExecute fault cmd st).1.content
        = [⟨"text", serializeResult (runCore fault cmd st).1⟩]
    ∧ (textEditorExecute fault cmd st).2 = (runCore fault cmd st).2
    ∧ ((runCore fault cmd st).1.success = false →
        ∃ rest, serializeResult (runCore fault cmd st).1
          = "\x7b\"success\":false" ++ rest) := by
  refine ⟨rfl, rfl, ?_⟩
  intro h
  refine ⟨",\"message\":" ++ jsonStringLit (runCore fault cmd st).1.message
    ++ (match (runCore fault cmd st).1.content with
        | none => ""
        | some c => ",\"content\":" ++ jsonStringLit c) ++ "\x7d", ?_⟩
  unfold serializeResult
  rw [h]
  simp only [Bool.false_eq_true, if_false, String.append_assoc]

/-! ### Claim C6 -/

theorem createHandler_success (cmd : Command) (txt : String) (st : EditorState) :
    (createHandler cmd txt st).1.success = true := by
  unfold createHandler
  split <;> rfl

theorem strReplaceHandler_atomic (cmd : Command) (st : EditorState) :
    (strReplaceHandler cmd st).1.success = false →
    (strReplaceHandler cmd st).2 = st := by
  unfold strReplaceHandler
  split
  case h_2 => intro h; rfl
  case h_1 content heq =>
    split
    case h_1 => intro h; rfl
    case h_2 old heq2 =>
      simp only
      split
      · intro h; rfl
      · split
        · intro h; cases h
        · intro h; rfl

theorem insertHandler_atomic (cmd : Command) (st : EditorState) :
    (insertHandler cmd st).1.success = false →
    (insertHandler cmd st).2 = st := by
  unfold insertHandler
  split
  case h_2 => intro h; rfl
  case h_1 content heq =>
    split
    case h_1 => intro h; rfl
    case h_2 n heq2 =>
      split
      case h_1 => intro h; rfl
      case h_2 txt heq3 =>
        simp only
        split
        · intro h; cases h
        · intro h; rfl

/-- Claim C6: a mutating operation (create, str_replace, insert) that does
not succeed leaves the whole state — filesystem and history — exactly as
it was; in particular an insert with a line number outside
`[0, lineCount]` fails with the invalid-line message and changes
nothing. -/
theorem c6_failure_atomicity :
    (∀ (cmd : Command) (st : EditorState),
        isMutating cmd = true →
        (run cmd st).1.success = false → (run cmd st).2 = st)
    ∧ (∀ (p F txt : String) (n : Int) (st : EditorState),
        isAbsolutePath p = true → fileAt st p = some F →
        (n < 0 ∨ (((splitLines F).length : Int) < n)) →
        run (insertCmd p n txt) st
          = (⟨false, "Invalid line number: must be between 0 and "
              ++ toString (splitLines F).length, none⟩, st)) := by
  constructor
  · intro cmd st hmut hfail
    obtain ⟨c, p, vr, ft, os, ns, il⟩ := cmd
    simp only [isMutating, Bool.or_eq_true, decide_eq_true_eq] at hmut
    unfold run runCore runHandler at hfail ⊢
    by_cases habs : isAbsolutePath p = true
    · rw [show (Command.mk c p vr ft os ns il).path = p from rfl, habs]
        at hfail ⊢
      simp only [if_true] at hfail ⊢
      rcases hmut with (rfl | rfl) | rfl
      · cases ft with
        | none => rfl
        | some txt =>
          exact absurd hfail (by simp [guardFault, createHandler_success])
      · exact strReplaceHandler_atomic ⟨"str_replace", p, vr, ft, os, ns, il⟩ st hfail
      · exact insertHandler_atomic ⟨"insert", p, vr, ft, os, ns, il⟩ st hfail
    · simp only [Bool.not_eq_true] at habs
      rw [show (Command.mk c p vr ft os ns il).path = p from rfl, habs] at hfail ⊢
      simp
  · intro p F txt n st habs hfile hn
    unfold run runCore runHandler
    rw [show (insertCmd p n txt).path = p from rfl, habs]
    simp only [if_true, insertCmd]
    unfold insertHandler
    rw [show (Command.mk "insert" p none none none (some txt) (some n)).path = p from rfl,
      lookupEntry_of_fileAt hfile]
    simp only [guardFault]
    rw [if_neg (by rcases hn with h | h <;> omega :
      ¬(0 ≤ n ∧ n ≤ ((splitLines F).length : Int)))]

/-- Witness for C6: a no-match str_replace and an out-of-range insert on a
concrete three-line file, both leaving the state untouched. -/
theorem c6_failure_atomicity_witness :
    isMutating (replaceCmd "/f" "zz" none) = true
    ∧ (run (replaceCmd "/f" "zz" none) ⟨[("/f", FSEntry.file "a\nb\nc")], []⟩).1.success
        = false
    ∧ (run (replaceCmd "/f" "zz" none) ⟨[("/f", FSEntry.file "a\nb\nc")], []⟩).2
        = ⟨[("/f", FSEntry.file "a\nb\nc")], []⟩
    ∧ isAbsolutePath "/f" = true
    ∧ fileAt ⟨[("/f", FSEntry.file "a\nb\nc")], []⟩ "/f" = some "a\nb\nc"
    ∧ ((100 : Int) < 0 ∨ ((splitLines "a\nb\nc").length : Int) < 100)
    ∧ run (insertCmd "/f" 100 "x") ⟨[("/f", FSEntry.file "a\nb\nc")], []⟩
        = (⟨false, "Invalid line number: must be between 0 and "
            ++ toString (splitLines "a\nb\nc").length, none⟩,
           ⟨[("/f", FSEntry.file "a\nb\nc")], []⟩) :=
  ⟨by decide, by decide,
    c6_failure_atomicity.1 (replaceCmd "/f" "zz" none)
      ⟨[("/f", FSEntry.file "a\nb\nc")], []⟩ (by decide) (by decide),
    by decide, by decide, Or.inr (by decide),
    c6_failure_atomicity.2 "/f" "a\nb\nc" "x" 100
      ⟨[("/f", FSEntry.file "a\nb\nc")], []⟩ (by decide) (by decide)
      (Or.inr (by decide))⟩

/-! ### Undo and create building blocks -/

theorem lastSnap_concat (xs : List String) :
    ∀ (c a : String), lastSnap c (xs ++ [a]) = a := by
  induction xs with
  | nil => intro c a; rfl
  | cons x xs ih => intro c a; simp only [List.cons_append, lastSnap]; exact ih x a

theorem run_undo_spec (p : String) (st : EditorState) (h0 : List String)
    (a : String) (habs : isAbsolutePath p = true)
    (hh : histOf st p = h0 ++ [a]) :
    run (undoCmd p) st
      = (⟨true, "Successfully reverted last edit on " ++ p, none⟩,
         withFile (popSnapshot st p) p a) := by
  unfold run runCore runHandler undoHandler
  simp only [undoCmd]
  rw [habs]
  simp only [if_true]
  rw [hh]
  cases h0 with
  | nil => simp [guardFault, lastSnap]
  | cons x xs => simp [guardFault, lastSnap, lastSnap_concat]

theorem run_undo_nohistory (p : String) (st : EditorState)
    (habs : isAbsolutePath p = true) (hh : histOf st p = []) :
    run (undoCmd p) st
      = (⟨false, "No edit history found for " ++ p, none⟩, st) := by
  unfold run runCore runHandler
  simp only [undoCmd]
  rw [habs]
  simp only [if_true]
  rw [hh]

theorem run_create_new (p txt : String) (st : EditorState)
    (habs : isAbsolutePath p = true) (hnone : lookupEntry st.fs p = none) :
    run (createCmd p txt) st
      = (⟨true, "File created: " ++ p, none⟩, withFile st p txt) := by
  unfold run runCore runHandler createHandler
  simp only [createCmd]
  rw [habs]
  simp only [if_true]
  rw [hnone]
  rfl

theorem run_create_overwrite (p txt F : String) (st : EditorState)
    (habs : isAbsolutePath p = true) (hfile : fileAt st p = some F) :
    run (createCmd p txt) st
      = (⟨true, "File overwritten: " ++ p, none⟩,
         withFile (pushSnapshot st p F) p txt) := by
  unfold run runCore runHandler createHandler
  simp only [createCmd]
  rw [habs]
  simp only [if_true]
  rw [lookupEntry_of_fileAt hfile]
  rfl

/-! ### Claim C5 -/

/-- Claim C5: create with `file_text` present succeeds and writes the text
verbatim; on a previously non-existent path the message is the created
one, nothing is pushed, and a following undo fails with no history; on an
existing file the message is the overwritten one, the prior content is
pushed, and a following undo restores it exactly. -/
theorem c5_create_semantics (p txt : String) (st : EditorState)
    (habs : isAbsolutePath p = true) :
    (lookupEntry st.fs p = none →
      run (createCmd p txt) st
        = (⟨true, "File created: " ++ p, none⟩, withFile st p txt)
      ∧ fileAt (run (createCmd p txt) st).2 p = some txt
      ∧ histOf (run (createCmd p txt) st).2 p = histOf st p
      ∧ (histOf st p = [] →
          run (undoCmd p) (run (createCmd p txt) st).2
            = (⟨false, "No edit history found for " ++ p, none⟩,
               (run (createCmd p txt) st).2)))
    ∧ (∀ F, fileAt st p = some F →
        run (createCmd p txt) st
          = (⟨true, "File overwritten: " ++ p, none⟩,
             withFile (pushSnapshot st p F) p txt)
        ∧ fileAt (run (createCmd p txt) st).2 p = some txt
        ∧ histOf (run (createCmd p txt) st).2 p = histOf st p ++ [F]
        ∧ (run (undoCmd p) (run (createCmd p txt) st).2).1.success = true
        ∧ fileAt (run (undoCmd p) (run (createCmd p txt) st).2).2 p = some F) := by
  constructor
  · intro hnone
    have h := run_create_new p txt st habs hnone
    rw [h]
    refine ⟨rfl, fileAt_withFile_self st p txt, rfl, ?_⟩
    intro h0
    exact run_undo_nohistory p (withFile st p txt) habs
      (by rw [histOf_withFile]; exact h0)
  · intro F hfile
    have h := run_create_overwrite p txt F st habs hfile
    rw [h]
    have hh : histOf (withFile (pushSnapshot st p F) p txt) p
        = histOf st p ++ [F] := by
      rw [histOf_withFile, histOf_pushSnapshot_self]
    have hu := run_undo_spec p (withFile (pushSnapshot st p F) p txt)
      (histOf st p) F habs hh
    refine ⟨rfl, fileAt_withFile_self _ p txt, hh, ?_, ?_⟩
    · rw [hu]
    · rw [hu]
      exact fileAt_withFile_self _ p F

/-- Witness for C5: creating a brand-new file beside an existing one, and
overwriting the existing one. -/
theorem c5_create_semantics_witness :
    isAbsolutePath "/new.txt" = true
    ∧ lookupEntry ([("/old.txt", FSEntry.file "prior")] : FileSystem) "/new.txt" = none
    ∧ (run (createCmd "/new.txt" "hello") ⟨[("/old.txt", FSEntry.file "prior")], []⟩
        = (⟨true, "File created: /new.txt", none⟩,
           withFile ⟨[("/old.txt", FSEntry.file "prior")], []⟩ "/new.txt" "hello")
      ∧ fileAt (run (createCmd "/new.txt" "hello")
          ⟨[("/old.txt", FSEntry.file "prior")], []⟩).2 "/new.txt" = some "hello"
      ∧ histOf (run (createCmd "/new.txt" "hello")
          ⟨[("/old.txt", FSEntry.file "prior")], []⟩).2 "/new.txt"
          = histOf ⟨[("/old.txt", FSEntry.file "prior")], []⟩ "/new.txt"
      ∧ (histOf (⟨[("/old.txt", FSEntry.file "prior")], []⟩ : EditorState) "/new.txt" = [] →
          run (undoCmd "/new.txt") (run (createCmd "/new.txt" "hello")
            ⟨[("/old.txt", FSEntry.file "prior")], []⟩).2
            = (⟨false, "No edit history found for /new.txt", none⟩,
               (run (createCmd "/new.txt" "hello")
                 ⟨[("/old.txt", FSEntry.file "prior")], []⟩).2)))
    ∧ fileAt ⟨[("/old.txt", FSEntry.file "prior")], []⟩ "/old.txt" = some "prior"
    ∧ ((run (undoCmd "/old.txt") (run (createCmd "/old.txt" "fresh")
          ⟨[("/old.txt", FSEntry.file "prior")], []⟩).2).1.success = true
      ∧ fileAt (run (undoCmd "/old.txt") (run (createCmd "/old.txt" "fresh")
          ⟨[("/old.txt", FSEntry.file "prior")], []⟩).2).2 "/old.txt" = some "prior") :=
  ⟨by decide, by decide,
    (c5_create_semantics "/new.txt" "hello"
      ⟨[("/old.txt", FSEntry.file "prior")], []⟩ (by decide)).1 (by decide),
    by decide,
    ⟨((c5_create_semantics "/old.txt" "fresh"
        ⟨[("/old.txt", FSEntry.file "prior")], []⟩ (by decide)).2 "prior"
        (by decide)).2.2.2.1,
      ((c5_create_semantics "/old.txt" "fresh"
        ⟨[("/old.txt", FSEntry.file "prior")], []⟩ (by decide)).2 "prior"
        (by decide)).2.2.2.2⟩⟩

/-! ### Line splitting and joining -/

theorem mk_data (s : String) : String.mk s.data = s := by cases s; rfl

theorem splitLinesAux_no_newline : ∀ (a acc : List Char),
    '\n' ∉ a → splitLinesAux a acc = [String.mk (acc.reverse ++ a)] := by
  intro a
  induction a with
  | nil => intro acc h; simp [splitLinesAux]
  | cons c cs ih =>
    intro acc h
    have hc : ¬(c = '\n') := fun hh => h (hh ▸ List.mem_cons_self c cs)
    have hcs : '\n' ∉ cs := fun hh => h (List.mem_cons_of_mem c hh)
    simp only [splitLinesAux, if_neg hc]
    rw [ih (c :: acc) hcs]
    simp

theorem splitLinesAux_newline_split : ∀ (a acc r : List Char),
    '\n' ∉ a →
    splitLinesAux (a ++ '\n' :: r) acc
      = String.mk (acc.reverse ++ a) :: splitLinesAux r [] := by
  intro a
  induction a with
  | nil => intro acc r h; simp [splitLinesAux]
  | cons c cs ih =>
    intro acc r h
    have hc : ¬(c = '\n') := fun hh => h (hh ▸ List.mem_cons_self c cs)
    have hcs : '\n' ∉ cs := fun hh => h (List.mem_cons_of_mem c hh)
    simp only [List.cons_append, splitLinesAux, if_neg hc, List.append_eq]
    rw [ih (c :: acc) r hcs]
    simp

theorem mem_splitLinesAux_no_newline : ∀ (cs acc : List Char) (l : String),
    '\n' ∉ acc → l ∈ splitLinesAux cs acc → '\n' ∉ l.data := by
  intro cs
  induction cs with
  | nil =>
    intro acc l hacc hl
    simp [splitLinesAux] at hl
    subst hl
    simpa using hacc
  | cons c cs ih =>
    intro acc l hacc hl
    by_cases hc : c = '\n'
    · subst hc
      simp only [splitLinesAux, if_pos rfl] at hl
      rcases List.mem_cons.mp hl with rfl | hl
      · simpa using hacc
      · exact ih [] l (by simp) hl
    · simp only [splitLinesAux, if_neg hc] at hl
      exact ih (c :: acc) l (by simp [hacc, Ne.symm hc, hc]) hl

theorem splitLines_no_newline (s l : String) (h : l ∈ splitLines s) :
    '\n' ∉ l.data :=
  mem_splitLinesAux_no_newline s.data [] l (by simp) h

theorem splitLines_joinLines : ∀ (ls : List String), ls ≠ [] →
    (∀ l ∈ ls, '\n' ∉ l.data) → splitLines (joinLines ls) = ls := by
  intro ls
  induction ls with
  | nil => intro h; exact absurd rfl h
  | cons l ls ih =>
    intro _ hnl
    cases ls with
    | nil =>
      show splitLines l = [l]
      unfold splitLines
      rw [splitLinesAux_no_newline l.data [] (hnl l (List.mem_cons_self l []))]
      simp [mk_data]
    | cons l' ls' =>
      show splitLines (l ++ "\n" ++ joinLines (l' :: ls')) = l :: l' :: ls'
      unfold splitLines
      have hdata : (l ++ "\n" ++ joinLines (l' :: ls')).data
          = l.data ++ '\n' :: (joinLines (l' :: ls')).data := by
        simp [String.data_append]
      rw [hdata,
        splitLinesAux_newline_split l.data [] (joinLines (l' :: ls')).data
          (hnl l (List.mem_cons_self l (l' :: ls')))]
      simp only [List.reverse_nil, List.nil_append, mk_data]
      have := ih (by simp) (fun x hx => hnl x (List.mem_cons_of_mem l hx))
      unfold splitLines at this
      rw [this]

theorem run_insert_success (p F txt : String) (n : Int) (st : EditorState)
    (habs : isAbsolutePath p = true) (hfile : fileAt st p = some F)
    (hn : 0 ≤ n ∧ n ≤ ((splitLines F).length : Int)) :
    run (insertCmd p n txt) st
      = (⟨true, "Successfully inserted text at line " ++ toString n ++ ".", none⟩,
         withFile (pushSnapshot st p F) p
           (joinLines ((splitLines F).take n.toNat ++ [txt]
             ++ (splitLines F).drop n.toNat))) := by
  unfold run runCore runHandler insertHandler
  simp only [insertCmd]
  rw [habs]
  simp only [if_true]
  rw [lookupEntry_of_fileAt hfile]
  simp only [guardFault]
  rw [if_pos hn]

/-! ### Claim C4 -/

/-- Claim C4: insert at a valid 0-indexed line number succeeds with the
inserted-at-line message, and the resulting file is the old lines with
the new line spliced in at that position — all earlier lines unchanged
and all later lines shifted one down. -/
theorem c4_insert_semantics (p F txt : String) (n : Int) (st : EditorState)
    (habs : isAbsolutePath p = true) (hfile : fileAt st p = some F)
    (hn : 0 ≤ n ∧ n ≤ ((splitLines F).length : Int)) :
    run (insertCmd p n txt) st
      = (⟨true, "Successfully inserted text at line " ++ toString n ++ ".", none⟩,
         withFile (pushSnapshot st p F) p
           (joinLines ((splitLines F).take n.toNat ++ [txt]
             ++ (splitLines F).drop n.toNat)))
    ∧ ('\n' ∉ txt.data →
        ∃ G, fileAt (run (insertCmd p n txt) st).2 p = some G
          ∧ splitLines G
              = (splitLines F).take n.toNat ++ [txt]
                ++ (splitLines F).drop n.toNat) := by
  refine ⟨run_insert_success p F txt n st habs hfile hn, ?_⟩
  intro htxt
  rw [run_insert_success p F txt n st habs hfile hn]
  refine ⟨_, fileAt_withFile_self _ p _, ?_⟩
  apply splitLines_joinLines
  · simp
  · intro l hl
    rcases List.mem_append.mp hl with hl2 | hl2
    · rcases List.mem_append.mp hl2 with hl3 | hl3
      · exact splitLines_no_newline F l (List.mem_of_mem_take hl3)
      · rcases List.mem_singleton.mp hl3 with rfl
        exact htxt
    · exact splitLines_no_newline F l (List.mem_of_mem_drop hl2)

/-- Witness for C4: the example of the spec, inserting "x" at line 1 of
"a\nb\nc" to obtain "a\nx\nb\nc". -/
theorem c4_insert_semantics_witness :
    isAbsolutePath "/f" = true
    ∧ fileAt ⟨[("/f", FSEntry.file "a\nb\nc")], []⟩ "/f" = some "a\nb\nc"
    ∧ ((0 : Int) ≤ 1 ∧ (1 : Int) ≤ ((splitLines "a\nb\nc").length : Int))
    ∧ run (insertCmd "/f" 1 "x") ⟨[("/f", FSEntry.file "a\nb\nc")], []⟩
        = (⟨true, "Successfully inserted text at line 1.", none⟩,
           withFile (pushSnapshot ⟨[("/f", FSEntry.file "a\nb\nc")], []⟩ "/f" "a\nb\nc")
             "/f" (joinLines ((splitLines "a\nb\nc").take (1 : Int).toNat ++ ["x"]
               ++ (splitLines "a\nb\nc").drop (1 : Int).toNat)))
    ∧ fileAt (run (insertCmd "/f" 1 "x")
        ⟨[("/f", FSEntry.file "a\nb\nc")], []⟩).2 "/f" = some "a\nx\nb\nc" :=
  ⟨by decide, by decide, by decide,
    (c4_insert_semantics "/f" "a\nb\nc" "x" 1 ⟨[("/f", FSEntry.file "a\nb\nc")], []⟩
      (by decide) (by decide) (by decide)).1,
    by decide⟩

/-! ### Claim C7 -/

theorem run_view_file (p F : String) (range : Option (Option Int × Int))
    (st : EditorState) (habs : isAbsolutePath p = true)
    (hfile : fileAt st p = some F) :
    run (viewCmd p range) st = (truncateView (renderedView F range), st) := by
  unfold run runCore runHandler viewHandler
  simp only [viewCmd]
  rw [habs]
  simp only [if_true]
  rw [lookupEntry_of_fileAt hfile]
  rfl

/-- Claim C7: when the rendered line-numbered view exceeds 10 × 1024
characters it is cut at that threshold with the clip marker appended and
the truncated message; otherwise the full rendering is returned with the
plain message.  Viewing never changes the state. -/
theorem c7_view_truncation (p F : String) (range : Option (Option Int × Int))
    (st : EditorState) (habs : isAbsolutePath p = true)
    (hfile : fileAt st p = some F) :
    (10 * 1024 < (renderedView F range).data.length →
      (run (viewCmd p range) st).1
        = ⟨true, "File content (truncated):",
           some (String.mk ((renderedView F range).data.take (10 * 1024))
             ++ "<response clipped>")⟩)
    ∧ ((renderedView F range).data.length ≤ 10 * 1024 →
      (run (viewCmd p range) st).1
        = ⟨true, "File content:", some (renderedView F range)⟩)
    ∧ (run (viewCmd p range) st).2 = st := by
  rw [run_view_file p F range st habs hfile]
  refine ⟨?_, ?_, rfl⟩
  · intro h
    unfold truncateView
    rw [if_pos (show MAX_VIEW_SIZE < (renderedView F range).data.length from h)]
    rfl
  · intro h
    unfold truncateView
    rw [if_neg (by simpa [MAX_VIEW_SIZE] using Nat.not_lt.mpr h)]

theorem renderedView_single_line (F : String) (hF : '\n' ∉ F.data) :
    renderedView F none = "1: " ++ F := by
  unfold renderedView
  have h1 : splitLines F = [F] := by
    unfold splitLines
    rw [splitLinesAux_no_newline F.data [] hF]
    simp [mk_data]
  rw [h1]
  simp [viewBounds, numberAndFilter, joinLines]
  rw [show (toString (1 : Nat)) ++ ": " = "1: " from by decide]

theorem big_no_newline : '\n' ∉ (String.mk (List.replicate 10300 'A')).data := by
  show '\n' ∉ List.replicate 10300 'A'
  simp only [List.mem_replicate]
  decide

theorem big_rendered_len :
    (renderedView (String.mk (List.replicate 10300 'A')) none).data.length
      = 10303 := by
  rw [renderedView_single_line _ big_no_newline]
  rw [String.data_append, List.length_append]
  rw [show ("1: " : String).data.length = 3 from by decide]
  rw [show (String.mk (List.replicate 10300 'A')).data
      = List.replicate 10300 'A' from rfl]
  rw [List.length_replicate]

theorem big_fileAt :
    fileAt ⟨[("/big", FSEntry.file (String.mk (List.replicate 10300 'A')))], []⟩
      "/big" = some (String.mk (List.replicate 10300 'A')) := by
  unfold fileAt
  rw [show (lookupEntry
      ((⟨[("/big", FSEntry.file (String.mk (List.replicate 10300 'A')))], []⟩ :
        EditorState).fs) "/big")
      = some (FSEntry.file (String.mk (List.replicate 10300 'A')))
    from by rw [lookupEntry_cons, if_pos rfl]]

/-- Witness for C7: a 10300-character single-line file, whose rendering
exceeds the threshold, and a small file below it. -/
theorem c7_view_truncation_witness :
    isAbsolutePath "/big" = true
    ∧ fileAt ⟨[("/big", FSEntry.file (String.mk (List.replicate 10300 'A')))], []⟩
        "/big" = some (String.mk (List.replicate 10300 'A'))
    ∧ 10 * 1024
        < (renderedView (String.mk (List.replicate 10300 'A')) none).data.length
    ∧ (run (viewCmd "/big" none)
        ⟨[("/big", FSEntry.file (String.mk (List.replicate 10300 'A')))], []⟩).1
        = ⟨true, "File content (truncated):",
           some (String.mk ((renderedView (String.mk (List.replicate 10300 'A'))
               none).data.take (10 * 1024)) ++ "<response clipped>")⟩
    ∧ fileAt ⟨[("/small", FSEntry.file "hi")], []⟩ "/small" = some "hi"
    ∧ (renderedView "hi" none).data.length ≤ 10 * 1024
    ∧ (run (viewCmd "/small" none) ⟨[("/small", FSEntry.file "hi")], []⟩).1
        = ⟨true, "File content:", some (renderedView "hi" none)⟩ :=
  ⟨by decide, big_fileAt, by rw [big_rendered_len]; decide,
    (c7_view_truncation "/big" (String.mk (List.replicate 10300 'A')) none
      ⟨[("/big", FSEntry.file (String.mk (List.replicate 10300 'A')))], []⟩
      (by decide) big_fileAt).1 (by rw [big_rendered_len]; decide),
    by decide, by decide,
    (c7_view_truncation "/small" "hi" none ⟨[("/small", FSEntry.file "hi")], []⟩
      (by decide) (by decide)).2.1 (by decide)⟩

/-! ### Claim C1 -/

theorem mk_append (l1 l2 : List Char) :
    String.mk (l1 ++ l2) = String.mk l1 ++ String.mk l2 := rfl

theorem count_one_decomp : ∀ (hay pat rep : List Char),
    countOccurAux hay pat = 1 →
    ∃ a b, hay = a ++ pat ++ b
      ∧ replaceFirstAux hay pat rep = a ++ rep ++ b := by
  intro hay
  induction hay with
  | nil =>
    intro pat rep h
    by_cases hp : pat = ([] : List Char)
    · subst hp
      exact ⟨[], [], rfl, by simp [replaceFirstAux]⟩
    · simp [countOccurAux, hp] at h
  | cons c cs ih =>
    intro pat rep h
    by_cases hpre : pat.isPrefixOf (c :: cs) = true
    · have hcs : countOccurAux cs pat = 0 := by
        simp [countOccurAux, hpre] at h
        omega
      obtain ⟨t, ht⟩ := List.isPrefixOf_iff_prefix.mp hpre
      refine ⟨[], t, by simp [← ht], ?_⟩
      simp only [replaceFirstAux, if_pos hpre]
      rw [← ht, List.drop_left]
      simp
    · have h1 : countOccurAux cs pat = 1 := by
        simpa [countOccurAux, hpre] using h
      obtain ⟨a, b, hab, hrep⟩ := ih pat rep h1
      refine ⟨c :: a, b, by simp [hab], ?_⟩
      simp only [replaceFirstAux, if_neg hpre]
      rw [hrep]
      simp

theorem run_str_replace (p F old : String) (new : Option String)
    (st : EditorState) (habs : isAbsolutePath p = true)
    (hfile : fileAt st p = some F) :
    run (replaceCmd p old new) st
      = (if countOccurrences F old = 0 then
           (⟨false, "old_str was not found in file", none⟩, st)
         else if countOccurrences F old = 1 then
           (⟨true, "Successfully replaced text at exactly one location.", none⟩,
             withFile (pushSnapshot st p F) p (replaceFirst F old (new.getD "")))
         else
           (⟨false, "Found " ++ toString (countOccurrences F old)
             ++ " occurrences of old_str in the file", none⟩, st)) := by
  unfold run runCore runHandler strReplaceHandler
  simp only [replaceCmd]
  rw [habs]
  simp only [if_true]
  rw [lookupEntry_of_fileAt hfile]
  rfl

/-- Claim C1: on an existing file, str_replace with old_str occurring
exactly once succeeds with the exact success message and the content
becomes the file with that single occurrence replaced by new_str (empty
when omitted); zero occurrences fail with the not-found message and two
or more fail with a message reporting the exact count; both failures
leave the whole state unchanged. -/
theorem c1_str_replace_contract (p F old : String) (new : Option String)
    (st : EditorState)
    (habs : isAbsolutePath p = true) (hfile : fileAt st p = some F) :
    (countOccurrences F old = 1 →
      (run (replaceCmd p old new) st).1
          = ⟨true, "Successfully replaced text at exactly one location.", none⟩
      ∧ ∃ a b : String, F = a ++ old ++ b
          ∧ fileAt (run (replaceCmd p old new) st).2 p
              = some (a ++ new.getD "" ++ b))
    ∧ (countOccurrences F old = 0 →
      run (replaceCmd p old new) st
        = (⟨false, "old_str was not found in file", none⟩, st))
    ∧ (2 ≤ countOccurrences F old →
      run (replaceCmd p old new) st
        = (⟨false, "Found " ++ toString (countOccurrences F old)
            ++ " occurrences of old_str in the file", none⟩, st)) := by
  rw [run_str_replace p F old new st habs hfile]
  refine ⟨?_, ?_, ?_⟩
  · intro h1
    rw [if_neg (by omega), if_pos h1]
    obtain ⟨la, lb, hab, hrep⟩ :=
      count_one_decomp F.data old.data (new.getD "").data h1
    refine ⟨rfl, String.mk la, String.mk lb, ?_, ?_⟩
    · have h2 : String.mk F.data = String.mk (la ++ old.data ++ lb) :=
        congrArg String.mk hab
      rw [mk_data] at h2
      rw [h2]
      rw [show String.mk (la ++ old.data ++ lb)
          = String.mk la ++ String.mk old.data ++ String.mk lb from rfl, mk_data]
    · rw [fileAt_withFile_self]
      have h3 : replaceFirst F old (new.getD "")
          = String.mk (la ++ (new.getD "").data ++ lb) := by
        unfold replaceFirst
        rw [hrep]
      rw [h3,
        show String.mk (la ++ (new.getD "").data ++ lb)
          = String.mk la ++ String.mk (new.getD "").data ++ String.mk lb from rfl,
        mk_data]
  · intro h0
    rw [if_pos h0]
  · intro h2
    rw [if_neg (by omega), if_neg (by omega)]

/-- Witness for C1: the test fixture sentence with a unique match, a
missing needle, and the duplicated sentence with two matches. -/
theorem c1_str_replace_contract_witness :
    isAbsolutePath "/f" = true
    ∧ fileAt ⟨[("/f", FSEntry.file "It has multiple lines.")], []⟩ "/f"
        = some "It has multiple lines."
    ∧ countOccurrences "It has multiple lines." "multiple lines" = 1
    ∧ ((run (replaceCmd "/f" "multiple lines" (some "replaced lines"))
          ⟨[("/f", FSEntry.file "It has multiple lines.")], []⟩).1
        = ⟨true, "Successfully replaced text at exactly one location.", none⟩
      ∧ ∃ a b : String, "It has multiple lines." = a ++ "multiple lines" ++ b
          ∧ fileAt (run (replaceCmd "/f" "multiple lines" (some "replaced lines"))
              ⟨[("/f", FSEntry.file "It has multiple lines.")], []⟩).2 "/f"
              = some (a ++ (some "replaced lines").getD "" ++ b))
    ∧ fileAt (run (replaceCmd "/f" "multiple lines" (some "replaced lines"))
        ⟨[("/f", FSEntry.file "It has multiple lines.")], []⟩).2 "/f"
        = some "It has replaced lines."
    ∧ countOccurrences "It has multiple lines." "zzz" = 0
    ∧ run (replaceCmd "/f" "zzz" none)
        ⟨[("/f", FSEntry.file "It has multiple lines.")], []⟩
        = (⟨false, "old_str was not found in file", none⟩,
           ⟨[("/f", FSEntry.file "It has multiple lines.")], []⟩)
    ∧ countOccurrences "This is a test. This is a test." "This is a test" = 2
    ∧ run (replaceCmd "/d" "This is a test" (some "Replaced text"))
        ⟨[("/d", FSEntry.file "This is a test. This is a test.")], []⟩
        = (⟨false, "Found 2 occurrences of old_str in the file", none⟩,
           ⟨[("/d", FSEntry.file "This is a test. This is a test.")], []⟩) :=
  ⟨by decide, by decide, by decide,
    (c1_str_replace_contract "/f" "It has multiple lines." "multiple lines"
      (some "replaced lines") ⟨[("/f", FSEntry.file "It has multiple lines.")], []⟩
      (by decide) (by decide)).1 (by decide),
    by decide, by decide,
    (c1_str_replace_contract "/f" "It has multiple lines." "zzz" none
      ⟨[("/f", FSEntry.file "It has multiple lines.")], []⟩
      (by decide) (by decide)).2.1 (by decide),
    by decide,
    (c1_str_replace_contract "/d" "This is a test. This is a test."
      "This is a test" (some "Replaced text")
      ⟨[("/d", FSEntry.file "This is a test. This is a test.")], []⟩
      (by decide) (by decide)).2.2 (by decide)⟩

/-! ### Claim C3 -/

theorem numberAndFilter_eq : ∀ (ls : List String) (i : Nat) (s e : Int),
    numberAndFilter ls i s e
      = ((List.range' i ls.length).filter
          (fun (j : Nat) => decide (s ≤ (j : Int) ∧ (j : Int) ≤ e))).map
          (fun (j : Nat) => toString j ++ ": " ++ ls.getD (j - i) "") := by
  intro ls
  induction ls with
  | nil => intro i s e; simp [numberAndFilter]
  | cons l ls ih =>
    intro i s e
    simp only [numberAndFilter, List.length_cons, List.range'_succ, List.filter_cons]
    by_cases hc : s ≤ (i : Int) ∧ (i : Int) ≤ e
    · rw [if_pos hc, if_pos (by simpa using hc)]
      simp only [List.map_cons, List.singleton_append]
      have hhead : (l :: ls).getD (i - i) "" = l := by
        rw [Nat.sub_self]
        rfl
      rw [hhead, ih (i + 1)]
      refine congrArg (List.cons _) (List.map_congr_left ?_)
      intro j hj
      have hmem : j ∈ List.range' (i + 1) ls.length := List.mem_of_mem_filter hj
      have hge : i + 1 ≤ j := (List.mem_range'_1.mp hmem).1
      have hsub : j - i = (j - (i + 1)) + 1 := by omega
      rw [hsub]
      rfl
    · rw [if_neg hc, if_neg (by simpa using hc)]
      simp only [List.nil_append]
      rw [ih (i + 1)]
      refine List.map_congr_left ?_
      intro j hj
      have hmem : j ∈ List.range' (i + 1) ls.length := List.mem_of_mem_filter hj
      have hge : i + 1 ≤ j := (List.mem_range'_1.mp hmem).1
      have hsub : j - i = (j - (i + 1)) + 1 := by omega
      rw [hsub]
      rfl

theorem filter_clamp (n : Nat) (s e : Int) :
    (List.range' 1 n).filter
        (fun (j : Nat) => decide (s ≤ (j : Int) ∧ (j : Int) ≤ e))
      = (List.range' 1 n).filter
          (fun (j : Nat) =>
            decide (max s 1 ≤ (j : Int) ∧ (j : Int) ≤ min e (n : Int))) := by
  apply List.filter_congr
  intro j hj
  have hb := List.mem_range'_1.mp hj
  have h1 : 1 ≤ (j : Int) := by exact_mod_cast hb.1
  have h2 : (j : Int) ≤ (n : Int) := by exact_mod_cast (by omega : j ≤ n)
  apply decide_eq_decide.mpr
  constructor
  · rintro ⟨hs, he⟩
    exact ⟨max_le_iff.mpr ⟨hs, h1⟩, le_min_iff.mpr ⟨he, h2⟩⟩
  · rintro ⟨hs, he⟩
    exact ⟨le_trans (le_max_left s 1) hs, le_trans he (min_le_left e (n : Int))⟩

theorem run_view_file_small (p F : String) (range : Option (Option Int × Int))
    (st : EditorState) (habs : isAbsolutePath p = true)
    (hfile : fileAt st p = some F)
    (hsize : (renderedView F range).data.length ≤ 10 * 1024) :
    (run (viewCmd p range) st).1
      = ⟨true, "File content:", some (renderedView F range)⟩ := by
  rw [run_view_file p F range st habs hfile]
  unfold truncateView
  rw [if_neg (by simpa [MAX_VIEW_SIZE] using Nat.not_lt.mpr hsize)]

/-- Claim C3: viewing an existing file with range `[s, e]` (below the
truncation threshold) returns exactly the lines numbered `max(s, 1)`
through `min(e, lineCount)` in order, where `e = -1` means the line count
and a null start defaults to 1, each line prefixed with its absolute
1-indexed number; with no range, every line is returned with its
number. -/
theorem c3_view_range_semantics (p F : String) (so : Option Int) (e : Int)
    (st : EditorState) (habs : isAbsolutePath p = true)
    (hfile : fileAt st p = some F) :
    ((renderedView F (some (so, e))).data.length ≤ 10 * 1024 →
      (run (viewCmd p (some (so, e))) st).1
        = ⟨true, "File content:",
           some (joinLines
             (((List.range' 1 (splitLines F).length).filter
                 (fun (j : Nat) =>
                   decide (max (so.getD 1) 1 ≤ (j : Int)
                     ∧ (j : Int)
                         ≤ min (if e = -1 then ((splitLines F).length : Int) else e)
                             ((splitLines F).length : Int)))).map
               (fun (j : Nat) =>
                 toString j ++ ": " ++ (splitLines F).getD (j - 1) "")))⟩)
    ∧ ((renderedView F none).data.length ≤ 10 * 1024 →
      (run (viewCmd p none) st).1
        = ⟨true, "File content:",
           some (joinLines
             ((List.range' 1 (splitLines F).length).map
               (fun (j : Nat) =>
                 toString j ++ ": " ++ (splitLines F).getD (j - 1) "")))⟩) := by
  constructor
  · intro hsize
    rw [run_view_file_small p F (some (so, e)) st habs hfile hsize]
    have hr : renderedView F (some (so, e))
        = joinLines
            (((List.range' 1 (splitLines F).length).filter
                (fun (j : Nat) =>
                  decide (max (so.getD 1) 1 ≤ (j : Int)
                    ∧ (j : Int)
                        ≤ min (if e = -1 then ((splitLines F).length : Int) else e)
                            ((splitLines F).length : Int)))).map
              (fun (j : Nat) =>
                toString j ++ ": " ++ (splitLines F).getD (j - 1) "")) := by
      unfold renderedView viewBounds
      simp only
      rw [numberAndFilter_eq, filter_clamp]
    rw [hr]
  · intro hsize
    rw [run_view_file_small p F none st habs hfile hsize]
    have hr : renderedView F none
        = joinLines
            ((List.range' 1 (splitLines F).length).map
              (fun (j : Nat) =>
                toString j ++ ": " ++ (splitLines F).getD (j - 1) "")) := by
      unfold renderedView viewBounds
      simp only
      rw [numberAndFilter_eq]
      rw [List.filter_eq_self.mpr]
      intro j hj
      have hb := List.mem_range'_1.mp hj
      apply decide_eq_true
      constructor
      · exact_mod_cast hb.1
      · exact_mod_cast (by omega : j ≤ (splitLines F).length)
    rw [hr]

/-- Witness for C3: the five-line test fixture viewed with range [2, 4],
with the spec's [2, 2] single-line example, and with no range. -/
theorem c3_view_range_semantics_witness :
    isAbsolutePath "/f" = true
    ∧ fileAt ⟨[("/f", FSEntry.file "l1\nl2\nl3\nl4\nl5")], []⟩ "/f"
        = some "l1\nl2\nl3\nl4\nl5"
    ∧ (renderedView "l1\nl2\nl3\nl4\nl5" (some (some 2, 4))).data.length ≤ 10 * 1024
    ∧ (run (viewCmd "/f" (some (some 2, 4)))
        ⟨[("/f", FSEntry.file "l1\nl2\nl3\nl4\nl5")], []⟩).1
        = ⟨true, "File content:",
           some (joinLines
             (((List.range' 1 (splitLines "l1\nl2\nl3\nl4\nl5").length).filter
                 (fun (j : Nat) =>
                   decide (max ((some (2 : Int)).getD 1) 1 ≤ (j : Int)
                     ∧ (j : Int)
                         ≤ min (if (4 : Int) = -1
                               then ((splitLines "l1\nl2\nl3\nl4\nl5").length : Int)
                               else 4)
                             ((splitLines "l1\nl2\nl3\nl4\nl5").length : Int)))).map
               (fun (j : Nat) =>
                 toString j ++ ": "
                   ++ (splitLines "l1\nl2\nl3\nl4\nl5").getD (j - 1) "")))⟩
    ∧ (run (viewCmd "/f" (some (some 2, 4)))
        ⟨[("/f", FSEntry.file "l1\nl2\nl3\nl4\nl5")], []⟩).1.content
        = some "2: l2\n3: l3\n4: l4"
    ∧ (run (viewCmd "/f" (some (some 2, 2)))
        ⟨[("/f", FSEntry.file "l1\nl2\nl3\nl4\nl5")], []⟩).1.content
        = some "2: l2"
    ∧ (run (viewCmd "/f" (some (none, -1)))
        ⟨[("/f", FSEntry.file "l1\nl2\nl3\nl4\nl5")], []⟩).1.content
        = some "1: l1\n2: l2\n3: l3\n4: l4\n5: l5"
    ∧ (run (viewCmd "/f" none)
        ⟨[("/f", FSEntry.file "l1\nl2\nl3\nl4\nl5")], []⟩).1.content
        = some "1: l1\n2: l2\n3: l3\n4: l4\n5: l5" :=
  ⟨by decide, by decide, by decide,
    (c3_view_range_semantics "/f" "l1\nl2\nl3\nl4\nl5" (some 2) 4
      ⟨[("/f", FSEntry.file "l1\nl2\nl3\nl4\nl5")], []⟩
      (by decide) (by decide)).1 (by decide),
    by decide, by decide, by decide, by decide⟩

/-! ### Claim C2 -/

theorem strReplaceHandler_step (cmd : Command) (st : EditorState) (F : String)
    (hfile : lookupEntry st.fs cmd.path = some (FSEntry.file F)) :
    (strReplaceHandler cmd st).1.success = true →
    histOf (strReplaceHandler cmd st).2 cmd.path = histOf st cmd.path ++ [F]
    ∧ ∃ F2, fileAt (strReplaceHandler cmd st).2 cmd.path = some F2 := by
  unfold strReplaceHandler
  rw [hfile]
  cases cmd.old_str with
  | none => intro h; cases h
  | some old =>
    simp only
    split
    · intro h; cases h
    · split
      · intro _
        constructor
        · rw [histOf_withFile, histOf_pushSnapshot_self]
        · exact ⟨_, fileAt_withFile_self _ _ _⟩
      · intro h; cases h

theorem insertHandler_step (cmd : Command) (st : EditorState) (F : String)
    (hfile : lookupEntry st.fs cmd.path = some (FSEntry.file F)) :
    (insertHandler cmd st).1.success = true →
    histOf (insertHandler cmd st).2 cmd.path = histOf st cmd.path ++ [F]
    ∧ ∃ F2, fileAt (insertHandler cmd st).2 cmd.path = some F2 := by
  unfold insertHandler
  rw [hfile]
  cases cmd.insert_line with
  | none => intro h; cases h
  | some n =>
    cases cmd.new_str with
    | none => intro h; cases h
    | some txt =>
      simp only
      split
      · intro _
        constructor
        · rw [histOf_withFile, histOf_pushSnapshot_self]
        · exact ⟨_, fileAt_withFile_self _ _ _⟩
      · intro h; cases h

theorem createHandler_step (cmd : Command) (txt : String) (st : EditorState) (F : String)
    (hfile : lookupEntry st.fs cmd.path = some (FSEntry.file F)) :
    histOf (createHandler cmd txt st).2 cmd.path = histOf st cmd.path ++ [F]
    ∧ ∃ F2, fileAt (createHandler cmd txt st).2 cmd.path = some F2 := by
  unfold createHandler
  rw [hfile]
  constructor
  · rw [histOf_withFile, histOf_pushSnapshot_self]
  · exact ⟨_, fileAt_withFile_self _ _ _⟩

theorem mutStep (cmd : Command) (st : EditorState) (F : String)
    (hmut : isMutating cmd = true) (hfile : fileAt st cmd.path = some F)
    (hsucc : (run cmd st).1.success = true) :
    histOf (run cmd st).2 cmd.path = histOf st cmd.path ++ [F]
    ∧ ∃ F2, fileAt (run cmd st).2 cmd.path = some F2 := by
  have hlk := lookupEntry_of_fileAt hfile
  obtain ⟨c, p, vr, ft, os, ns, il⟩ := cmd
  simp only [isMutating, Bool.or_eq_true, decide_eq_true_eq] at hmut
  simp only at hlk ⊢
  unfold run runCore runHandler at hsucc ⊢
  by_cases habs : isAbsolutePath p = true
  · rw [show (Command.mk c p vr ft os ns il).path = p from rfl, habs] at hsucc ⊢
    simp only [if_true] at hsucc ⊢
    rcases hmut with (rfl | rfl) | rfl
    · cases ft with
      | none => cases hsucc
      | some txt =>
        exact createHandler_step ⟨"create", p, vr, some txt, os, ns, il⟩ txt st F hlk
    · exact strReplaceHandler_step ⟨"str_replace", p, vr, ft, os, ns, il⟩ st F hlk hsucc
    · exact insertHandler_step ⟨"insert", p, vr, ft, os, ns, il⟩ st F hlk hsucc
  · simp only [Bool.not_eq_true] at habs
    rw [show (Command.mk c p vr ft os ns il).path = p from rfl, habs] at hsucc
    cases hsucc

theorem run_undo_shrink (q : String) (st2 : EditorState)
    (hsucc : (run (undoCmd q) st2).1.success = true) :
    (histOf (run (undoCmd q) st2).2 q).length + 1 = (histOf st2 q).length := by
  by_cases habs : isAbsolutePath q = true
  · cases hh : histOf st2 q with
    | nil =>
      rw [run_undo_nohistory q st2 habs hh] at hsucc
      cases hsucc
    | cons c cs =>
      have hcc : histOf st2 q = (c :: cs).dropLast ++ [(c :: cs).getLast (by simp)] := by
        rw [hh, List.dropLast_append_getLast]
      rw [run_undo_spec q st2 (c :: cs).dropLast ((c :: cs).getLast (by simp)) habs hcc]
      simp only [histOf_withFile, histOf_popSnapshot_self, hcc]
      rw [List.dropLast_concat]
      simp [List.length_dropLast, hh]
  · unfold run runCore at hsucc
    simp only [undoCmd] at hsucc
    rw [show (isAbsolutePath q) = false from by simpa using habs] at hsucc
    cases hsucc

theorem runSeq_append : ∀ (a b : List Command) (st : EditorState),
    runSeq (a ++ b) st = runSeq b (runSeq a st) := by
  intro a
  induction a with
  | nil => intro b st; rfl
  | cons c cs ih => intro b st; simp only [List.cons_append, runSeq]; exact ih b _

theorem mutSeq : ∀ (cmds : List Command) (st : EditorState) (F : String) (p : String),
    (∀ cmd ∈ cmds, isMutating cmd = true ∧ cmd.path = p) →
    succeedsAll cmds st = true →
    fileAt st p = some F →
    ∃ l : List String,
      histOf (runSeq cmds st) p = histOf st p ++ l
      ∧ l.length = cmds.length
      ∧ (∀ G l2, l = G :: l2 → G = F)
      ∧ (∃ F2, fileAt (runSeq cmds st) p = some F2) := by
  intro cmds
  induction cmds with
  | nil =>
    intro st F p _ _ hfile
    refine ⟨[], by simp [runSeq], rfl, ?_, ⟨F, hfile⟩⟩
    intro G l2 h
    cases h
  | cons cmd cs ih =>
    intro st F p hall hsucc hfile
    obtain ⟨hmut, hpath⟩ := hall cmd (List.mem_cons_self cmd cs)
    simp only [succeedsAll, Bool.and_eq_true] at hsucc
    obtain ⟨hs1, hs2⟩ := hsucc
    have hstep := mutStep cmd st F hmut (hpath ▸ hfile) hs1
    rw [hpath] at hstep
    obtain ⟨hhist1, F1, hF1⟩ := hstep
    obtain ⟨l2, hl2, hlen2, hhead2, hex2⟩ :=
      ih (run cmd st).2 F1 p (fun c hc => hall c (List.mem_cons_of_mem cmd hc)) hs2 hF1
    refine ⟨F :: l2, ?_, by simp [hlen2], ?_, ?_⟩
    · show histOf (runSeq cs (run cmd st).2) p = _
      rw [hl2, hhist1]
      simp
    · intro G l3 h
      cases h
      rfl
    · exact hex2

theorem undoSeq (p : String) (habs : isAbsolutePath p = true) (h0 : List String) :
    ∀ (l : List String) (st : EditorState),
    histOf st p = h0 ++ l →
    histOf (runSeq (List.replicate l.length (undoCmd p)) st) p = h0
    ∧ (l = [] → runSeq (List.replicate l.length (undoCmd p)) st = st)
    ∧ (∀ G l2, l = G :: l2 →
        fileAt (runSeq (List.replicate l.length (undoCmd p)) st) p = some G)
    ∧ succeedsAll (List.replicate l.length (undoCmd p)) st = true := by
  intro l
  induction l using List.reverseRecOn with
  | nil =>
    intro st hh
    refine ⟨by simpa using hh, fun _ => rfl, ?_, rfl⟩
    intro G l2 h
    cases h
  | append_singleton l' a ih =>
    intro st hh
    have hh2 : histOf st p = (h0 ++ l') ++ [a] := by rw [hh, List.append_assoc]
    have hu := run_undo_spec p st (h0 ++ l') a habs hh2
    have hst1 : histOf (withFile (popSnapshot st p) p a) p = h0 ++ l' := by
      rw [histOf_withFile, histOf_popSnapshot_self, hh2, List.dropLast_concat]
    have hlen : (l' ++ [a]).length = l'.length + 1 := by simp
    rw [hlen, List.replicate_succ]
    have hstep : runSeq (undoCmd p :: List.replicate l'.length (undoCmd p)) st
        = runSeq (List.replicate l'.length (undoCmd p))
            (withFile (popSnapshot st p) p a) := by
      show runSeq (List.replicate l'.length (undoCmd p)) (run (undoCmd p) st).2 = _
      rw [hu]
    obtain ⟨ih1, ih2, ih3, ih4⟩ := ih (withFile (popSnapshot st p) p a) hst1
    refine ⟨by rw [hstep]; exact ih1, ?_, ?_, ?_⟩
    · intro h
      exact absurd h (by simp)
    · intro G l2 h
      rw [hstep]
      cases l' with
      | nil =>
        have : G = a := by
          cases h
          rfl
        subst this
        rw [ih2 rfl]
        exact fileAt_withFile_self _ p G
      | cons x xs =>
        have hx : G = x := by
          cases h
          rfl
        subst hx
        exact ih3 G xs rfl
    · show ((run (undoCmd p) st).1.success
          && succeedsAll (List.replicate l'.length (undoCmd p)) (run (undoCmd p) st).2)
          = true
      rw [hu]
      simp only [Bool.and_eq_true]
      exact ⟨by trivial, ih4⟩

theorem c2_history_invariant_amended (p F : String) (st : EditorState)
    (habs : isAbsolutePath p = true) (hfile : fileAt st p = some F) :
    (∀ cmd : Command, isMutating cmd = true → cmd.path = p →
        (run cmd st).1.success = true →
        (histOf (run cmd st).2 p).length = (histOf st p).length + 1)
    ∧ (∀ (q : String) (st2 : EditorState),
        (run (undoCmd q) st2).1.success = true →
        (histOf (run (undoCmd q) st2).2 q).length + 1 = (histOf st2 q).length)
    ∧ (∀ cmds : List Command,
        (∀ cmd ∈ cmds, isMutating cmd = true ∧ cmd.path = p) →
        succeedsAll cmds st = true →
        succeedsAll (List.replicate cmds.length (undoCmd p)) (runSeq cmds st) = true
        ∧ fileAt (runSeq (cmds ++ List.replicate cmds.length (undoCmd p)) st) p
            = some F
        ∧ histOf (runSeq (cmds ++ List.replicate cmds.length (undoCmd p)) st) p
            = histOf st p
        ∧ (histOf st p = [] →
            run (undoCmd p)
                (runSeq (cmds ++ List.replicate cmds.length (undoCmd p)) st)
              = (⟨false, "No edit history found for " ++ p, none⟩,
                 runSeq (cmds ++ List.replicate cmds.length (undoCmd p)) st))) := by
  refine ⟨?_, ?_, ?_⟩
  · intro cmd hmut hpath hsucc
    have := (mutStep cmd st F hmut (hpath ▸ hfile) hsucc).1
    rw [hpath] at this
    rw [this]
    simp
  · exact run_undo_shrink
  · intro cmds hall hsucc
    obtain ⟨l, hl, hlen, hhead, hex⟩ := mutSeq cmds st F p hall hsucc hfile
    have hrw : runSeq (cmds ++ List.replicate cmds.length (undoCmd p)) st
        = runSeq (List.replicate l.length (undoCmd p)) (runSeq cmds st) := by
      rw [runSeq_append, hlen]
    obtain ⟨hu1, hu2, hu3, hu4⟩ :=
      undoSeq p habs (histOf st p) l (runSeq cmds st) hl
    refine ⟨by rw [← hlen]; exact hu4, ?_, by rw [hrw]; exact hu1, ?_⟩
    · rw [hrw]
      cases l with
      | nil =>
        rw [hu2 rfl]
        have hc : cmds = [] := by
          cases cmds with
          | nil => rfl
          | cons a b => simp at hlen
        subst hc
        exact hfile
      | cons G l2 =>
        rw [hu3 G l2 rfl]
        rw [hhead G l2 rfl]
    · intro hemp
      apply run_undo_nohistory p _ habs
      rw [hrw, hu1, hemp]

/-- Counterexample for C2 as stated: create on a previously non-existent
path is a successful mutating operation after which the path's history
stack has grown by zero entries, not one. -/
theorem c2_counterexample :
    isMutating (createCmd "/a" "x") = true
    ∧ (run (createCmd "/a" "x") ⟨[], []⟩).1.success = true
    ∧ (histOf (run (createCmd "/a" "x") ⟨[], []⟩).2 "/a").length = 0
    ∧ (histOf (⟨[], []⟩ : EditorState) "/a").length = 0 := by decide

/-- Witness for C2 (amended): two successful mutations on an existing
file followed by two undos restore the original content and empty
history, and a third undo fails with no history. -/
theorem c2_history_invariant_amended_witness :
    isAbsolutePath "/f" = true
    ∧ fileAt ⟨[("/f", FSEntry.file "A")], []⟩ "/f" = some "A"
    ∧ isMutating (replaceCmd "/f" "A" (some "B")) = true
    ∧ (replaceCmd "/f" "A" (some "B")).path = "/f"
    ∧ (run (replaceCmd "/f" "A" (some "B")) ⟨[("/f", FSEntry.file "A")], []⟩).1.success
        = true
    ∧ (histOf (run (replaceCmd "/f" "A" (some "B"))
        ⟨[("/f", FSEntry.file "A")], []⟩).2 "/f").length
        = (histOf ⟨[("/f", FSEntry.file "A")], []⟩ "/f").length + 1
    ∧ (∀ cmd ∈ [replaceCmd "/f" "A" (some "B"), createCmd "/f" "C"],
        isMutating cmd = true ∧ cmd.path = "/f")
    ∧ succeedsAll [replaceCmd "/f" "A" (some "B"), createCmd "/f" "C"]
        ⟨[("/f", FSEntry.file "A")], []⟩ = true
    ∧ (succeedsAll (List.replicate ([replaceCmd "/f" "A" (some "B"),
          createCmd "/f" "C"] : List Command).length (undoCmd "/f"))
        (runSeq [replaceCmd "/f" "A" (some "B"), createCmd "/f" "C"]
          ⟨[("/f", FSEntry.file "A")], []⟩) = true
      ∧ fileAt (runSeq ([replaceCmd "/f" "A" (some "B"), createCmd "/f" "C"]
          ++ List.replicate ([replaceCmd "/f" "A" (some "B"),
               createCmd "/f" "C"] : List Command).length (undoCmd "/f"))
          ⟨[("/f", FSEntry.file "A")], []⟩) "/f" = some "A"
      ∧ histOf (runSeq ([replaceCmd "/f" "A" (some "B"), createCmd "/f" "C"]
          ++ List.replicate ([replaceCmd "/f" "A" (some "B"),
               createCmd "/f" "C"] : List Command).length (undoCmd "/f"))
          ⟨[("/f", FSEntry.file "A")], []⟩) "/f"
          = histOf ⟨[("/f", FSEntry.file "A")], []⟩ "/f"
      ∧ (histOf (⟨[("/f", FSEntry.file "A")], []⟩ : EditorState) "/f" = [] →
          run (undoCmd "/f")
              (runSeq ([replaceCmd "/f" "A" (some "B"), createCmd "/f" "C"]
                ++ List.replicate ([replaceCmd "/f" "A" (some "B"),
                     createCmd "/f" "C"] : List Command).length (undoCmd "/f"))
                ⟨[("/f", FSEntry.file "A")], []⟩)
            = (⟨false, "No edit history found for /f", none⟩,
               runSeq ([replaceCmd "/f" "A" (some "B"), createCmd "/f" "C"]
                 ++ List.replicate ([replaceCmd "/f" "A" (some "B"),
                      createCmd "/f" "C"] : List Command).length (undoCmd "/f"))
                 ⟨[("/f", FSEntry.file "A")], []⟩))) :=
  ⟨by decide, by decide, by decide, by decide, by decide,
    (c2_history_invariant_amended "/f" "A" ⟨[("/f", FSEntry.file "A")], []⟩
      (by decide) (by decide)).1 (replaceCmd "/f" "A" (some "B"))
      (by decide) (by decide) (by decide),
    by decide, by decide,
    (c2_history_invariant_amended "/f" "A" ⟨[("/f", FSEntry.file "A")], []⟩
      (by decide) (by decide)).2.2
      [replaceCmd "/f" "A" (some "B"), createCmd "/f" "C"]
      (by decide) (by decide)⟩

/-- Witness for C10 at a failing invocation (unknown command). -/
theorem c10_result_envelope_witness :
    (textEditorExecute none (bareCmd "invalid_command" "/f") ⟨[], []⟩).1.content
        = [⟨"text",
            serializeResult (runCore none (bareCmd "invalid_command" "/f") ⟨[], []⟩).1⟩]
    ∧ ((runCore none (bareCmd "invalid_command" "/f") ⟨[], []⟩).1.success = false →
        ∃ rest, serializeResult (runCore none (bareCmd "invalid_command" "/f") ⟨[], []⟩).1
          = "\x7b\"success\":false" ++ rest) :=
  ⟨(c10_result_envelope none (bareCmd "invalid_command" "/f") ⟨[], []⟩).1,
    (c10_result_envelope none (bareCmd "invalid_command" "/f") ⟨[], []⟩).2.2⟩

end TextEditor
